import Mathlib

/-
Verification development for the overlay agent in p2p.go (package main of
popsolutions/p2p).  The peer registry, the introduction handshake, the
reconcile pass (purge / merge / endpoint selection) and the outbound MAC
lookup are embedded as pure Lean functions; Go strings are modelled as
`List Char` (all strings the parsers accept are ASCII, where Go's byte
indexing and `List Char` indexing agree), Go's nil slices and nil pointers
as `Option`, and external effects (UDP probes, address resolution, the
interface table) as explicit oracle parameters.
-/

set_option autoImplicit false

namespace P2P

/-! ### Models of the Go standard-library parsers used by p2p.go

`net.ParseMAC`, `net.ParseIP` and `strings.Split` are called by
`ParseIntroString` and `GenerateMAC`; they live in the Go standard library,
not in this repository, and are embedded here following the stdlib source
(`net/mac.go`, `net/ip.go`, leading-zero rejection of Go 1.17+ `parseIPv4`).
-/

/-- Value of one hex digit, as accepted by Go's `xtoi` (`net/parse.go`). -/
def digitVal (c : Char) : Option Nat :=
  if '0' ≤ c ∧ c ≤ '9' then some (c.toNat - '0'.toNat)
  else if 'a' ≤ c ∧ c ≤ 'f' then some (c.toNat - 'a'.toNat + 10)
  else if 'A' ≤ c ∧ c ≤ 'F' then some (c.toNat - 'A'.toNat + 10)
  else none

/-- Loop of Go's `xtoi` (`net/parse.go`): hex number, consumed count, ok flag.
`big = 0xFFFFFF`; on overflow Go returns `(0, i, false)` with `i` the index of
the digit that overflowed. -/
def xtoiAux : List Char → Nat → Nat → Nat × Nat × Bool
  | c :: rest, n, i =>
    match digitVal c with
    | some d =>
      if 0xFFFFFF ≤ n * 16 + d then (0, i, false)
      else xtoiAux rest (n * 16 + d) (i + 1)
    | none => if i = 0 then (0, i, false) else (n, i, true)
  | [], n, i => if i = 0 then (0, i, false) else (n, i, true)

/-- Go `xtoi` (`net/parse.go`). -/
def xtoi (s : List Char) : Nat × Nat × Bool := xtoiAux s 0 0

/-- Go `xtoi2` (`net/parse.go`): the next two hex digits of `s`; if `s` is
longer than two bytes the third byte must equal `e`. -/
def xtoi2 (s : List Char) (e : Char) : Nat × Bool :=
  if 2 < s.length ∧ ¬ s.get? 2 = some e then (0, false)
  else
    let t := xtoi (s.take 2)
    (t.1, t.2.2 && decide (t.2.1 = 2))

/-- Loop of Go's `dtoi` (`net/parse.go`): decimal number, consumed count, ok.
`big = 0xFFFFFF`; on overflow Go returns `(big, i, false)`. -/
def dtoiAux : List Char → Nat → Nat → Nat × Nat × Bool
  | c :: rest, n, i =>
    if '0' ≤ c ∧ c ≤ '9' then
      if 0xFFFFFF ≤ n * 10 + (c.toNat - '0'.toNat) then (0xFFFFFF, i, false)
      else dtoiAux rest (n * 10 + (c.toNat - '0'.toNat)) (i + 1)
    else if i = 0 then (0, 0, false) else (n, i, true)
  | [], n, i => if i = 0 then (0, 0, false) else (n, i, true)

/-- Go `dtoi` (`net/parse.go`). -/
def dtoi (s : List Char) : Nat × Nat × Bool := dtoiAux s 0 0

/-- Go `strings.Split(s, sep)` for a one-character separator: all substrings
between occurrences of `sep`; the empty string yields `[""]`. -/
def splitGo (sep : Char) : List Char → List (List Char)
  | [] => [[]]
  | c :: rest =>
    if c = sep then [] :: splitGo sep rest
    else
      match splitGo sep rest with
      | h :: t => (c :: h) :: t
      | [] => [[c]]

/-- Group loop of Go `net.ParseMAC` for the `:`/`-` forms: `n` groups of two
hex digits, stepping three bytes at a time. -/
def macColonGroups (sep : Char) : Nat → List Char → Option (List Nat)
  | 0, _ => some []
  | k + 1, s =>
    let t := xtoi2 s sep
    if t.2 then (macColonGroups sep k (s.drop 3)).map (fun r => t.1 :: r)
    else none

/-- Group loop of Go `net.ParseMAC` for the dotted form: pairs of bytes,
stepping five bytes at a time (`xtoi2(s[x:x+2], 0)` then `xtoi2(s[x+2:], '.')`). -/
def macDotGroups (sep : Char) : Nat → List Char → Option (List Nat)
  | 0, _ => some []
  | k + 1, s =>
    let t1 := xtoi2 (s.take 2) (Char.ofNat 0)
    if t1.2 then
      let t2 := xtoi2 (s.drop 2) sep
      if t2.2 then (macDotGroups sep k (s.drop 5)).map (fun r => t1.1 :: t2.1 :: r)
      else none
    else none

/-- Go `net.ParseMAC` (`net/mac.go`): accepts 6-, 8- or 20-byte hardware
addresses in colon, hyphen or dotted notation; `none` is Go's `nil, err`. -/
def netParseMAC (s : List Char) : Option (List Nat) :=
  if s.length < 14 then none
  else
    match s.get? 2 with
    | some c2 =>
      if c2 = ':' ∨ c2 = '-' then
        if (s.length + 1) % 3 ≠ 0 then none
        else
          let n := (s.length + 1) / 3
          if n = 6 ∨ n = 8 ∨ n = 20 then macColonGroups c2 n s else none
      else
        match s.get? 4 with
        | some c4 =>
          if c4 = '.' then
            if (s.length + 1) % 5 ≠ 0 then none
            else
              let n := 2 * (s.length + 1) / 5
              if n = 6 ∨ n = 8 ∨ n = 20 then macDotGroups c4 (n / 2) s else none
          else none
        | none => none
    | none => none

/-- Field loop of Go `parseIPv4` (`net/ip.go`): four dot-separated decimal
fields, each ≤ 255 with no leading zeros; returns the four raw bytes. -/
def parseIPv4Fields : Nat → Bool → List Char → Option (List Nat)
  | 0, _, s => if s = [] then some [] else none
  | k + 1, first, s =>
    if s = [] then none
    else
      let strip : Option (List Char) :=
        if first then some s
        else
          match s with
          | '.' :: r => some r
          | _ => none
      match strip with
      | none => none
      | some s2 =>
        let t := dtoi s2
        if t.2.2 = false ∨ 0xFF < t.1 then none
        else if 1 < t.2.1 ∧ s2.head? = some '0' then none
        else (parseIPv4Fields k false (s2.drop t.2.1)).map (fun r => t.1 :: r)

/-- Go `parseIPv4` (`net/ip.go`): a dotted quad as a 16-byte IPv4-in-IPv6
address, which is what `net.ParseIP` stores for IPv4. -/
def netParseIPv4 (s : List Char) : Option (List Nat) :=
  (parseIPv4Fields 4 true s).map
    (fun p => [0, 0, 0, 0, 0, 0, 0, 0, 0, 0, 0xFF, 0xFF] ++ p)

/-- Ellipsis expansion at the end of Go `parseIPv6`: if fewer than 16 bytes
were parsed, insert zeros at the recorded `::` position; a `::` that stands
for no group at all is an error. -/
def expandEllipsis (acc : List Nat) (ell : Option Nat) : Option (List Nat) :=
  if acc.length < 16 then
    match ell with
    | none => none
    | some e => some (acc.take e ++ List.replicate (16 - acc.length) 0 ++ acc.drop e)
  else
    match ell with
    | some _ => none
    | none => some acc

/-- Main loop of Go `parseIPv6` (`net/ip.go`): 16-bit hex chunks separated by
colons, at most one `::`, optional trailing dotted quad.  The loop runs while
fewer than 16 bytes are parsed and each iteration adds two (or four and
stops), so at most 8 iterations happen; `fuel = 16` therefore never runs out
and only makes the recursion structural. -/
def parseIPv6Loop (fuel : Nat) (s : List Char) (acc : List Nat) (ell : Option Nat) :
    Option (List Nat × Option Nat) :=
  match fuel with
  | 0 => none
  | fuel + 1 =>
    if 16 ≤ acc.length then (if s = [] then some (acc, ell) else none)
    else
      let t := xtoi s
      if t.2.2 = false ∨ 0xFFFF < t.1 then none
      else if t.2.1 < s.length ∧ s.get? t.2.1 = some '.' then
        if ell = none ∧ acc.length ≠ 12 then none
        else if 16 < acc.length + 4 then none
        else
          match parseIPv4Fields 4 true s with
          | none => none
          | some p4 => some (acc ++ p4, ell)
      else
        let acc2 := acc ++ [t.1 / 256, t.1 % 256]
        let s2 := s.drop t.2.1
        if s2 = [] then some (acc2, ell)
        else if ¬ s2.head? = some ':' ∨ s2.length = 1 then none
        else
          let s3 := s2.drop 1
          if s3.head? = some ':' then
            if ell.isSome then none
            else
              let s4 := s3.drop 1
              if s4 = [] then some (acc2, some acc2.length)
              else parseIPv6Loop fuel s4 acc2 (some acc2.length)
          else parseIPv6Loop fuel s3 acc2 ell

/-- Go `parseIPv6` (`net/ip.go`): leading `::` handling, main loop, ellipsis
expansion. -/
def netParseIPv6 (s : List Char) : Option (List Nat) :=
  match s with
  | ':' :: ':' :: rest =>
    if rest = [] then some (List.replicate 16 0)
    else
      match parseIPv6Loop 16 rest [] (some 0) with
      | none => none
      | some (acc, ell) => expandEllipsis acc ell
  | _ =>
    match parseIPv6Loop 16 s [] none with
    | none => none
    | some (acc, ell) => expandEllipsis acc ell

/-- Dispatch scan of Go `net.ParseIP`: the first `.` or `:` in the string
decides between the IPv4 and the IPv6 parser. -/
def netParseIPAux (orig : List Char) : List Char → Option (List Nat)
  | [] => none
  | '.' :: _ => netParseIPv4 orig
  | ':' :: _ => netParseIPv6 orig
  | _ :: rest => netParseIPAux orig rest

/-- Go `net.ParseIP` (`net/ip.go`): `none` is Go's `nil`. -/
def netParseIP (s : List Char) : Option (List Nat) := netParseIPAux s s

/-- Go's lowercase hex digit table `"0123456789abcdef"` (`net/mac.go`,
`fmt` verb `%x`); indices ≥ 16 never occur for nibbles of a byte. -/
def hexDigitChar : Nat → Char
  | 0 => '0' | 1 => '1' | 2 => '2' | 3 => '3' | 4 => '4'
  | 5 => '5' | 6 => '6' | 7 => '7' | 8 => '8' | 9 => '9'
  | 10 => 'a' | 11 => 'b' | 12 => 'c' | 13 => 'd' | 14 => 'e'
  | _ => 'f'

/-- Two lowercase hex digits of a byte (`fmt.Sprintf("%02x", b)` for `b < 256`,
and the per-byte rendering of `net.HardwareAddr.String`). -/
def hex2 (b : Nat) : List Char := [hexDigitChar (b / 16), hexDigitChar (b % 16)]

/-! ### Data model

`net.UDPAddr` is only ever consulted through its `String()` form and passed
around whole, so it is modelled abstractly as host and port with
`String() = host:port` (the `net.JoinHostPort` rendering for the IPv4 hosts
this agent handles).  A Go `*net.UDPAddr` is `Option UDPAddr`, a Go
`net.HardwareAddr` / `net.IP` slice (nil on parse failure) is
`Option (List Nat)` of byte values. -/

structure UDPAddr where
  host : String
  port : Nat
deriving DecidableEq, Repr

/-- `(*net.UDPAddr).String()` for a non-nil address. -/
def udpAddrString (a : UDPAddr) : String := a.host ++ ":" ++ Nat.repr a.port

/-- `(*net.UDPAddr).String()`, including Go's `"<nil>"` for a nil pointer. -/
def goUDPStr : Option UDPAddr → String
  | none => "<nil>"
  | some a => udpAddrString a

/-- Colon-separated hex bytes of `net.HardwareAddr.String` (`net/mac.go`). -/
def hwChars : List Nat → List Char
  | [] => []
  | [b] => hex2 b
  | b :: rest => hex2 b ++ ':' :: hwChars rest

/-- `net.HardwareAddr.String()`; a nil (or empty) address renders as `""`. -/
def hwString : Option (List Nat) → String
  | none => ""
  | some bs => String.mk (hwChars bs)

/-- The `NetworkPeer` record of p2p.go, one per known remote agent. -/
structure NetworkPeer where
  ID : String
  Unknown : Bool
  Handshaked : Bool
  CleanAddr : String
  ProxyID : Int
  Forwarder : Option UDPAddr
  PeerAddr : Option UDPAddr
  PeerLocalIP : Option (List Nat)
  PeerHW : Option (List Nat)
  Endpoint : String
  KnownIPs : List (Option UDPAddr)
deriving DecidableEq, Repr

/-- An entry of `ptp.dht.Peers` (type `dht.PeerIP` of package p2p/dht, which
is not under src/): a rendezvous-reported peer id with its address strings. -/
structure PeerIP where
  ID : String
  Ips : List String
deriving DecidableEq, Repr

/-- A datagram the handler asks the UDP socket to transmit (`SendMessage`
calls in `HandleP2PMessage`); transport errors are logged only and do not
change the registry, so the payload details are irrelevant to the claims. -/
inductive OutMsg where
  | intro (dst : UDPAddr)
  | test (dst : UDPAddr)
deriving DecidableEq, Repr

/-- One entry of Go's `net.Interfaces()` as `SyncPeers` consumes it: the
interface name and, for each of its addresses, the CIDR network as a
containment test on a peer address (`network.Contains(kip.IP)`). -/
structure GoIface where
  name : String
  nets : List (UDPAddr → Bool)

/-! ### Operations of p2p.go -/

/-- `ParseIntroString` (p2p.go lines 680-702): split the payload on commas,
require exactly three parts, parse the MAC with `net.ParseMAC` and the IP
with `net.ParseIP`; every failure returns the sentinel `("", nil, nil)`. -/
def ParseIntroString (intro : String) : String × Option (List Nat) × Option (List Nat) :=
  match splitGo ',' intro.data with
  | [a, b, c] =>
    match netParseMAC b with
    | none => ("", none, none)
    | some mac =>
      match netParseIP c with
      | none => ("", none, none)
      | some ip => (String.mk a, some mac, some ip)
  | _ => ("", none, none)

/-- The fresh record appended by `AddPeer` (p2p.go lines 663-673) when no
existing record has the given id; fields the Go code does not assign stay at
their zero values, in particular `Endpoint = ""`. -/
def NewIntroPeer (addr : UDPAddr) (id : String) (ip mac : Option (List Nat)) : NetworkPeer :=
  { ID := id
    Unknown := false
    Handshaked := true
    CleanAddr := udpAddrString addr
    ProxyID := 0
    Forwarder := none
    PeerAddr := some addr
    PeerLocalIP := ip
    PeerHW := mac
    Endpoint := ""
    KnownIPs := [] }

/-- `AddPeer` (p2p.go lines 649-674): update every record whose id matches
(setting clean address, peer address, virtual IP/MAC, `Unknown = false`,
`Handshaked = true`), else append a fresh record. -/
def AddPeer (peers : List NetworkPeer) (addr : UDPAddr) (id : String)
    (ip mac : Option (List Nat)) : List NetworkPeer :=
  if peers.any (fun p => p.ID == id) then
    peers.map (fun p =>
      if p.ID == id then
        { p with
          CleanAddr := udpAddrString addr
          ID := id
          PeerAddr := some addr
          PeerLocalIP := ip
          PeerHW := mac
          Unknown := false
          Handshaked := true }
      else p)
  else peers ++ [NewIntroPeer addr id ip mac]

/-- `IsPeerUnknown` (p2p.go lines 704-711): the `Unknown` flag of the first
record whose clean address matches, `true` when none matches. -/
def IsPeerUnknown (peers : List NetworkPeer) (addr : UDPAddr) : Bool :=
  match peers.find? (fun p => p.CleanAddr == udpAddrString addr) with
  | some p => p.Unknown
  | none => true

/-- The `MT_INTRO` branch of `HandleP2PMessage` (p2p.go lines 730-743), after
the udpcs framing decode (package p2p/udpcs, not under src/) has produced a
message of type `MT_INTRO` carrying `data`: skip when the sender is already
known, otherwise parse the payload, call `AddPeer` with whatever the parse
returned (the error sentinel is not checked) and reply with our own INTRO.
Returns the new registry and the datagrams handed to the socket. -/
def HandleP2PMessageIntro (peers : List NetworkPeer) (src : UDPAddr) (data : String) :
    List NetworkPeer × List OutMsg :=
  if IsPeerUnknown peers src then
    let t := ParseIntroString data
    (AddPeer peers src t.1 t.2.2 t.2.1, [OutMsg.intro src])
  else (peers, [])

/-- `SendTo` (p2p.go lines 758-766): linear scan for the first record whose
`PeerHW.String()` equals the destination's, transmit to that record's
`PeerAddr` (the `Endpoint` field is not consulted), else return `(0, nil)`.
`sendRes` is the UDP socket's `SendMessage` result; the second component
records the datagram's destination, `none` when nothing was emitted. -/
def SendTo (sendRes : Option UDPAddr → Nat × Option String) (peers : List NetworkPeer)
    (dst : Option (List Nat)) : (Nat × Option String) × Option (Option UDPAddr) :=
  match peers.find? (fun p => hwString p.PeerHW == hwString dst) with
  | some p => (sendRes p.PeerAddr, some p.PeerAddr)
  | none => ((0, none), none)

/-- Value-level semantics of Go's `s = append(s[:i], s[i+1:]...)` on a slice of
length `l.length`: removal of element `i` when `i` is in range, a slice-bounds
panic (`none`) otherwise (for `i ≥ len(s)`, `s[i+1:]` has low above the default
high `len(s)`). -/
def removeAtGo {α : Type} (l : List α) (i : Nat) : Option (List α) :=
  if i < l.length then some (l.take i ++ l.drop (i + 1)) else none

/-- `PurgePeers` (p2p.go lines 423-440): collect, in ascending order, the
indices of records whose id no longer appears in `ptp.dht.Peers`, then delete
them one at a time with the append idiom — against the already-shrunk slice,
which is the source of the misbehaviour verified below.  The `catched`
argument of the Go function is unused by the live code path and omitted. -/
def PurgePeers (peers : List NetworkPeer) (dhtPeers : List PeerIP) :
    Option (List NetworkPeer) :=
  let rem := (peers.enum.filter
    (fun pr => !(dhtPeers.any (fun q => q.ID == pr.2.ID)))).map (fun pr => pr.1)
  rem.foldl
    (fun acc i =>
      match acc with
      | none => none
      | some l => removeAtGo l i)
    (some peers)

/-- One candidate address of the merge step of `SyncPeers` (p2p.go lines
513-528): skip `""` and `"0"`, skip when some entry of the dedup snapshot has
the candidate as its `String()`, else append `net.ResolveUDPAddr("udp", ip)`
(`resolve`; its error is discarded, so a failed resolution appends nil).  The
snapshot is the loop copy `peer.KnownIPs`, whose length is fixed when the
record is copied, while appends go to `ptp.NetworkPeers[i].KnownIPs` — hence
`snapshot` stays constant over a batch. -/
def SyncMergeStep (resolve : String → Option UDPAddr) (snapshot : List (Option UDPAddr))
    (cur : List (Option UDPAddr)) (ip : String) : List (Option UDPAddr) :=
  if ip == "" || ip == "0" then cur
  else if snapshot.any (fun k => goUDPStr k == ip) then cur
  else cur ++ [resolve ip]

/-- The whole address-merge batch for one existing peer during `SyncPeers`
(p2p.go lines 513-529): fold the candidates over `SyncMergeStep`, with the
dedup snapshot fixed to the list as it was when the batch started. -/
def SyncPeersMergeKnownIPs (resolve : String → Option UDPAddr)
    (known : List (Option UDPAddr)) (ips : List String) : List (Option UDPAddr) :=
  ips.foldl (SyncMergeStep resolve known) known

/-- The LAN scan of the endpoint selection in `SyncPeers` (p2p.go lines
542-562): over every interface other than the overlay device, every CIDR
network of its addresses and every known address, when the network contains
the candidate and its `TestConnection` probe (`probe`) succeeds, overwrite the
endpoint with the candidate's string and bump the new-endpoints counter.
State is `(endpoint, count)`; `none` models the nil dereference `kip.IP` on a
nil known-address entry. -/
def SyncPeersLanScan (devName : String) (ifaces : List GoIface) (probe : UDPAddr → Bool)
    (knownIPs : List (Option UDPAddr)) : Option (String × Nat) :=
  ifaces.foldl
    (fun ost inf =>
      match ost with
      | none => none
      | some st =>
        if inf.name == devName then some st
        else
          inf.nets.foldl
            (fun ost2 net =>
              match ost2 with
              | none => none
              | some st2 =>
                knownIPs.foldl
                  (fun ost3 kip =>
                    match ost3 with
                    | none => none
                    | some st3 =>
                      match kip with
                      | none => none
                      | some a =>
                        if net a then
                          if probe a then some (udpAddrString a, st3.2 + 1)
                          else some st3
                        else some st3)
                  (some st2))
            (some st))
    (some ("", 0))

/-- The endpoint selection of `SyncPeers` for one record with empty `Endpoint`
(p2p.go lines 532-578): run the LAN scan, then the fallback.  Between the two,
line 567 probes `KnownIPs[0]` and discards the result, which has no effect on
the state.  The fallback guard at line 573 reads the stale loop copy
`peer.Endpoint`, which is `""` throughout this branch, so the guard reduces to
`failback || len(KnownIPs) > 0`; `failback` is whether `net.Interfaces()`
failed.  When the guard fires on an empty `KnownIPs`, `KnownIPs[0]` is an
index panic (`none`). -/
def SyncPeersSelectEndpoint (devName : String) (ifaces : List GoIface)
    (probe : UDPAddr → Bool) (failback : Bool) (knownIPs : List (Option UDPAddr)) :
    Option (String × Nat) :=
  match SyncPeersLanScan devName ifaces probe knownIPs with
  | none => none
  | some st =>
    if failback || decide (0 < knownIPs.length) then
      match knownIPs with
      | [] => none
      | k :: _ => some (goUDPStr k, st.2 + 1)
    else some st

/-- `GenerateMAC` (p2p.go lines 630-645) given the six bytes drawn by
`rand.Read` (the error path of a failed read is not modelled).  Go computes
`buf[0] |= 2` but the format string then ignores `buf[0]` and fixes the first
octet to the literal `"06"`; the result is re-parsed with `net.ParseMAC`. -/
def GenerateMAC (b0 b1 b2 b3 b4 b5 : Fin 256) : String × Option (List Nat) :=
  let _ := b0.val ||| 2
  let mac : List Char :=
    '0' :: '6' :: ':' ::
      (hex2 b1.val ++ ':' :: (hex2 b2.val ++ ':' :: (hex2 b3.val ++ ':' ::
        (hex2 b4.val ++ ':' :: hex2 b5.val))))
  match netParseMAC mac with
  | none => ("", none)
  | some hw => (String.mk mac, some hw)

/-! ### Spec-side predicates (for the refinement comparison of claim C5)

These two follow the specification's words, not the code: "valid 48-bit
Ethernet address" and "valid dotted-quad" (§6, Introduction payload). -/

/-- Modelled from the spec: a "valid 48-bit Ethernet address" — a hardware
address that `net.ParseMAC` accepts with exactly six bytes. -/
def specMAC48 (s : List Char) : Bool :=
  match netParseMAC s with
  | some hw => decide (hw.length = 6)
  | none => false

/-- Numeric value of a decimal digit string (for `specDottedQuad`). -/
def decValue (f : List Char) : Nat := f.foldl (fun n c => n * 10 + (c.toNat - '0'.toNat)) 0

/-- Modelled from the spec: a "valid dotted-quad" IPv4 address — exactly four
dot-separated non-empty decimal fields, each of value at most 255. -/
def specDottedQuad (s : List Char) : Bool :=
  match splitGo '.' s with
  | [a, b, c, d] =>
    [a, b, c, d].all (fun f =>
      !f.isEmpty && f.all (fun ch => decide ('0' ≤ ch) && decide (ch ≤ '9'))
        && decide (decValue f ≤ 255))
  | _ => false

/-! ### Concrete fixtures used by the closed witnesses and counterexamples -/

/-- The fresh record `SyncPeers` creates for a newly seen id (p2p.go lines
583-588): id set, `Unknown = true`, every other field at its zero value. -/
def mkPeer (id : String) : NetworkPeer :=
  { ID := id
    Unknown := true
    Handshaked := false
    CleanAddr := ""
    ProxyID := 0
    Forwarder := none
    PeerAddr := none
    PeerLocalIP := none
    PeerHW := none
    Endpoint := ""
    KnownIPs := [] }

/-- A sample remote source address. -/
def addrA : UDPAddr := { host := "10.0.0.9", port := 4001 }

/-- A second sample source address, distinct from any stored clean address. -/
def addrB : UDPAddr := { host := "2.2.2.2", port := 2 }

/-- A sample UDP send result, standing for a successful socket write. -/
def sendOK : Option UDPAddr → Nat × Option String := fun _ => (18, none)

/-- A resolver oracle mapping every string to the same address, whose
`String()` form is `"9.9.9.9:9"`. -/
def rslv9 : String → Option UDPAddr := fun _ => some { host := "9.9.9.9", port := 9 }

/-- A LAN-scoped candidate address for the endpoint-selection scenario. -/
def lanAddr : UDPAddr := { host := "192.168.1.7", port := 4001 }

/-- The rendezvous-reported public candidate, first in the known list. -/
def pubAddr : UDPAddr := { host := "8.8.8.8", port := 4001 }

/-- A local interface whose single network contains exactly `lanAddr`. -/
def eth0 : GoIface := { name := "eth0", nets := [fun a => decide (a = lanAddr)] }

/-- A liveness-probe oracle that succeeds exactly on `lanAddr`. -/
def probeLan : UDPAddr → Bool := fun a => decide (a = lanAddr)

/-- A registry record whose virtual MAC is `01:02:03:04:05:06` but whose
endpoint was never selected (`Endpoint = ""`), as `AddPeer` leaves fresh
records. -/
def peerHW6 : NetworkPeer :=
  { mkPeer "x" with PeerHW := some [1, 2, 3, 4, 5, 6], PeerAddr := some addrA }

/-! ### Theorems -/

/-- Claim C2 (code_bug evidence): on the unparseable INTRO payload
`"id-x,not-a-mac,10.0.0.2"` from a fresh source, `ParseIntroString` does
return its error sentinel, yet `HandleP2PMessage` still mutates the registry
(a record with empty id, nil virtual IP and nil virtual MAC, marked
`Handshaked`) and still sends the INTRO reply — the claim requires the
registry unchanged and no reply. -/
theorem HandleIntro_parse_failure_mutates :
    HandleP2PMessageIntro [] addrA "id-x,not-a-mac,10.0.0.2"
        = ([NewIntroPeer addrA "" none none], [OutMsg.intro addrA])
      ∧ ParseIntroString "id-x,not-a-mac,10.0.0.2" = ("", none, none) := by
  decide

/-- Claim C3 (code_bug evidence): with records `A, B, C` and a rendezvous view
containing only `C`, the purge deletes by stale indices and ends with exactly
the record `B` — a record whose id is absent from the view survives and the
record whose id is present is removed. -/
theorem PurgePeers_removes_wrong_records :
    PurgePeers [mkPeer "A", mkPeer "B", mkPeer "C"] [{ ID := "C", Ips := [] }]
        = some [mkPeer "B"]
      ∧ ¬ (∃ q ∈ [({ ID := "C", Ips := [] } : PeerIP)], q.ID = "B")
      ∧ (∃ q ∈ [({ ID := "C", Ips := [] } : PeerIP)], q.ID = "C") := by
  decide

/-- Claim C4 (code_bug evidence): the known list holds the public address
first and a LAN-scoped address second, the LAN address lies in `eth0`'s
network and its probe succeeds — yet the selection ends with the public
address (and the counter bumped twice), because the fallback guard reads the
stale loop copy of `Endpoint`; the claim requires the successful LAN
candidate to be the endpoint. -/
theorem SyncPeers_fallback_overwrites_lan :
    SyncPeersSelectEndpoint "vptp1" [eth0] probeLan false [some pubAddr, some lanAddr]
        = some (udpAddrString pubAddr, 2)
      ∧ (eth0.nets.any (fun net => net lanAddr)) = true
      ∧ probeLan lanAddr = true
      ∧ udpAddrString pubAddr ≠ udpAddrString lanAddr := by
  decide

/-- Claim C6 (counterexample): a record matches the destination MAC but has
`Endpoint = ""`; `SendTo` still emits a datagram (to the record's
`PeerAddr`), while the claim says the frame is dropped silently. -/
theorem SendTo_transmits_despite_empty_endpoint :
    (SendTo sendOK [peerHW6] (some [1, 2, 3, 4, 5, 6])).2 = some (some addrA)
      ∧ peerHW6.Endpoint = "" := by
  decide

/-- Claim C6 (amended): `SendTo` never consults `Endpoint`: whenever the
linear scan finds a first record whose `PeerHW` renders like the destination
MAC, the message is sent to that record's `PeerAddr` — empty `Endpoint`
included; only a MAC miss drops the frame. -/
theorem SendTo_match_sends_to_peerAddr
    (sendRes : Option UDPAddr → Nat × Option String) (peers : List NetworkPeer)
    (dst : Option (List Nat)) (p : NetworkPeer)
    (h : peers.find? (fun q => hwString q.PeerHW == hwString dst) = some p) :
    SendTo sendRes peers dst = (sendRes p.PeerAddr, some p.PeerAddr) := by
  unfold SendTo
  rw [h]

/-- Witness for `SendTo_match_sends_to_peerAddr` at the empty-endpoint record. -/
theorem SendTo_match_sends_to_peerAddr_witness :
    SendTo sendOK [peerHW6] (some [1, 2, 3, 4, 5, 6])
      = (sendOK peerHW6.PeerAddr, some peerHW6.PeerAddr) :=
  SendTo_match_sends_to_peerAddr sendOK [peerHW6] (some [1, 2, 3, 4, 5, 6]) peerHW6
    (by decide)

/-- Claim C7: when no record's `PeerHW` renders like the destination MAC,
`SendTo` returns zero bytes sent and nil error, and emits no datagram. -/
theorem SendTo_no_match_drops
    (sendRes : Option UDPAddr → Nat × Option String) (peers : List NetworkPeer)
    (dst : Option (List Nat))
    (h : ∀ p ∈ peers, hwString p.PeerHW ≠ hwString dst) :
    SendTo sendRes peers dst = ((0, none), none) := by
  unfold SendTo
  have hf : peers.find? (fun p => hwString p.PeerHW == hwString dst) = none := by
    rw [List.find?_eq_none]
    intro p hp
    simpa using h p hp
  rw [hf]

/-- Witness for `SendTo_no_match_drops` on a registry whose only record has a
nil virtual MAC. -/
theorem SendTo_no_match_drops_witness :
    SendTo sendOK [mkPeer "A"] (some [1, 2, 3, 4, 5, 6]) = ((0, none), none) :=
  SendTo_no_match_drops sendOK [mkPeer "A"] (some [1, 2, 3, 4, 5, 6]) (by decide)

/-- Claim C1 (counterexample): a reachable registry state — produced by a
valid INTRO from a fresh sender on an empty registry — contains a record with
`Handshaked = true` and `Endpoint = ""`, refuting the invariant that every
handshaked record has a non-empty endpoint. -/
theorem handshaked_record_with_empty_endpoint :
    ((HandleP2PMessageIntro [] addrA "x,06:05:04:03:02:01,10.0.0.1").1.any
        (fun r => r.Handshaked && r.Endpoint == "")) = true := by
  decide

/-- Claim C1 (amended): every record `AddPeer` touches ends with
`Unknown = false`, `Handshaked = true` and exactly the caller's virtual
IP/MAC and peer address (nil included, since `HandleP2PMessage` passes the
unchecked parse result) — but `AddPeer` never assigns `Endpoint`: the
endpoint column is unchanged on updates and a fresh insert carries `""`. -/
theorem AddPeer_handshake_no_endpoint (peers : List NetworkPeer) (addr : UDPAddr)
    (id : String) (ip mac : Option (List Nat)) :
    (AddPeer peers addr id ip mac).map NetworkPeer.Endpoint
        = peers.map NetworkPeer.Endpoint
            ++ (if peers.any (fun p => p.ID == id) then [] else [""])
      ∧ ∀ r ∈ AddPeer peers addr id ip mac, r.ID = id →
          r.Unknown = false ∧ r.Handshaked = true ∧ r.PeerLocalIP = ip
            ∧ r.PeerHW = mac ∧ r.PeerAddr = some addr := by
  by_cases h : peers.any (fun p => p.ID == id)
  · constructor
    · simp only [AddPeer, if_pos h, List.map_map, List.append_nil, if_true, h]
      refine List.map_congr_left ?_
      intro p _
      by_cases hp : p.ID = id <;> simp [hp]
    · intro r hr hid
      simp only [AddPeer, if_pos h, List.mem_map, h, if_true] at hr
      obtain ⟨p, _, rfl⟩ := hr
      by_cases hp : (p.ID == id) = true
      · simp [hp]
      · exfalso
        rw [if_neg hp] at hid
        exact absurd hid (by simpa using hp)
  · constructor
    · simp [AddPeer, h, NewIntroPeer]
    · intro r hr hid
      simp only [AddPeer, if_neg h, List.mem_append, List.mem_singleton] at hr
      rcases hr with hr | rfl
      · exfalso
        apply h
        rw [List.any_eq_true]
        exact ⟨r, hr, by simp [hid]⟩
      · simp [NewIntroPeer]

/-- Witness for `AddPeer_handshake_no_endpoint`: a fresh insert on the empty
registry has endpoint column `[""]` and a handshaked new record. -/
theorem AddPeer_handshake_no_endpoint_witness :
    (AddPeer [] addrA "x" none none).map NetworkPeer.Endpoint = [""]
      ∧ (NewIntroPeer addrA "x" none none).Handshaked = true := by
  have h := AddPeer_handshake_no_endpoint [] addrA "x" none none
  refine ⟨by simpa using h.1, ?_⟩
  exact (h.2 (NewIntroPeer addrA "x" none none) (by decide) rfl).2.1

/-- Claim C9 (counterexample): the same address string offered twice in one
rendezvous batch is appended twice, because the dedup scans the stale loop
copy of `KnownIPs`; after the first append an entry with the same string form
is already in the list, so the claim's "appended only if its string form
differs from every address already in the list" fails. -/
theorem SyncPeersMerge_duplicate_append :
    SyncPeersMergeKnownIPs rslv9 [] ["9.9.9.9:9", "9.9.9.9:9"]
        = [some { host := "9.9.9.9", port := 9 }, some { host := "9.9.9.9", port := 9 }]
      ∧ goUDPStr (some { host := "9.9.9.9", port := 9 }) = "9.9.9.9:9" := by
  decide

/-- Claim C9 (amended): during one merge batch the entries `""` and `"0"` are
never added, and a candidate is appended exactly when it differs from both of
them and its string differs from the `String()` of every entry of the
snapshot taken when the batch started — entries appended earlier in the same
batch are not consulted.  Closed form: the result is the snapshot followed by
the resolved survivors of that filter, in order. -/
theorem SyncPeersMergeKnownIPs_closed_form (resolve : String → Option UDPAddr)
    (known : List (Option UDPAddr)) (ips : List String) :
    SyncPeersMergeKnownIPs resolve known ips
      = known ++ (ips.filter (fun ip => !(ip == "" || ip == "0")
            && !(known.any (fun k => goUDPStr k == ip)))).map (fun ip => resolve ip) := by
  unfold SyncPeersMergeKnownIPs
  suffices h : ∀ cur, ips.foldl (SyncMergeStep resolve known) cur
      = cur ++ (ips.filter (fun ip => !(ip == "" || ip == "0")
            && !(known.any (fun k => goUDPStr k == ip)))).map (fun ip => resolve ip) by
    exact h known
  induction ips with
  | nil => intro cur; simp
  | cons ip ips ih =>
    intro cur
    simp only [List.foldl_cons, List.filter_cons]
    by_cases e1 : ip = ""
    · subst e1; simp [SyncMergeStep, ih]
    · by_cases e2 : ip = "0"
      · subst e2; simp [SyncMergeStep, ih]
      · by_cases e3 : (known.any fun k => goUDPStr k == ip) = true
        · simp [SyncMergeStep, e1, e2, e3, ih]
        · simp [SyncMergeStep, e1, e2, e3, ih]

/-- Claim C10 (counterexample): an INTRO from a source address matching no
record's clean address, but whose payload id `"x"` is already registered
(the registry state `SyncPeers` creates for a rendezvous-discovered peer),
updates that record in place — the registry still has one record, no
brand-new record is appended. -/
theorem HandleIntro_known_id_updates_in_place :
    (HandleP2PMessageIntro [mkPeer "x"] addrB "x,06:05:04:03:02:01,10.0.0.1").1.length = 1
      ∧ (mkPeer "x").CleanAddr ≠ udpAddrString addrB := by
  decide

/-- Claim C10 (amended): an INTRO whose source address matches no record's
clean address and whose parsed payload id (empty on parse failure) matches no
record's id appends one brand-new record — with `Unknown = false` and
`Handshaked = true` — and sends an INTRO reply to the source. -/
theorem HandleIntro_unknown_appends_and_replies (peers : List NetworkPeer)
    (src : UDPAddr) (data : String)
    (h1 : ∀ r ∈ peers, r.CleanAddr ≠ udpAddrString src)
    (h2 : ∀ r ∈ peers, r.ID ≠ (ParseIntroString data).1) :
    HandleP2PMessageIntro peers src data
        = (peers ++ [NewIntroPeer src (ParseIntroString data).1
              (ParseIntroString data).2.2 (ParseIntroString data).2.1],
           [OutMsg.intro src])
      ∧ (NewIntroPeer src (ParseIntroString data).1 (ParseIntroString data).2.2
          (ParseIntroString data).2.1).Unknown = false
      ∧ (NewIntroPeer src (ParseIntroString data).1 (ParseIntroString data).2.2
          (ParseIntroString data).2.1).Handshaked = true := by
  have hu : IsPeerUnknown peers src = true := by
    unfold IsPeerUnknown
    have hf : peers.find? (fun p => p.CleanAddr == udpAddrString src) = none := by
      rw [List.find?_eq_none]
      intro p hp
      simpa using h1 p hp
    rw [hf]
  have ha : peers.any (fun p => p.ID == (ParseIntroString data).1) = false := by
    rw [List.any_eq_false]
    intro p hp
    simpa using h2 p hp
  refine ⟨?_, rfl, rfl⟩
  simp only [HandleP2PMessageIntro, hu, if_true, AddPeer, ha, Bool.false_eq_true,
    if_false]

/-- Witness for `HandleIntro_unknown_appends_and_replies`: a valid INTRO on
the empty registry appends exactly the parsed record and replies. -/
theorem HandleIntro_unknown_appends_and_replies_witness :
    HandleP2PMessageIntro [] addrB "x,06:05:04:03:02:01,10.0.0.1"
      = ([NewIntroPeer addrB "x"
            (some [0, 0, 0, 0, 0, 0, 0, 0, 0, 0, 255, 255, 10, 0, 0, 1])
            (some [6, 5, 4, 3, 2, 1])],
         [OutMsg.intro addrB]) := by
  have h := HandleIntro_unknown_appends_and_replies [] addrB
    "x,06:05:04:03:02:01,10.0.0.1" (by simp) (by simp)
  rw [h.1]
  decide

set_option maxRecDepth 4096 in
/-- Helper: `xtoi` reads back the two-hex-digit rendering of any byte. -/
theorem xtoi_hex2_fin : ∀ b : Fin 256, xtoi (hex2 b.val) = (b.val, 2, true) := by
  decide

/-- Helper: `xtoi2` on a hex pair followed by a colon separator. -/
theorem xtoi2_hex2_colon (b : Nat) (hb : b < 256) (rest : List Char) :
    xtoi2 (hex2 b ++ ':' :: rest) ':' = (b, true) := by
  have h := xtoi_hex2_fin ⟨b, hb⟩
  simp only [hex2] at h ⊢
  simp [xtoi2, h]

/-- Helper: `xtoi2` on a final hex pair with nothing after it. -/
theorem xtoi2_hex2_last (b : Nat) (hb : b < 256) :
    xtoi2 (hex2 b) ':' = (b, true) := by
  have h := xtoi_hex2_fin ⟨b, hb⟩
  simp only [hex2] at h ⊢
  simp [xtoi2, h]

/-- Helper: one colon group of the MAC parser peels one rendered byte. -/
theorem macColonGroups_cons (b : Nat) (hb : b < 256) (k : Nat) (rest : List Char) :
    macColonGroups ':' (k + 1) (hex2 b ++ ':' :: rest)
      = (macColonGroups ':' k rest).map (fun r => b :: r) := by
  have h := xtoi2_hex2_colon b hb rest
  simp only [macColonGroups, h]
  simp [hex2]

/-- Helper: the last colon group of the MAC parser. -/
theorem macColonGroups_one (b : Nat) (hb : b < 256) :
    macColonGroups ':' (0 + 1) (hex2 b) = some [b] := by
  have h := xtoi2_hex2_last b hb
  simp only [macColonGroups, h]
  simp [hex2, macColonGroups]

/-- Helper: the colon-group loop inverts `hwChars` on any non-empty byte
list. -/
theorem macColonGroups_hwChars : ∀ bs : List Nat, bs ≠ [] → (∀ x ∈ bs, x < 256) →
    macColonGroups ':' bs.length (hwChars bs) = some bs := by
  intro bs
  induction bs with
  | nil => intro h; exact absurd rfl h
  | cons b tail ih =>
    cases tail with
    | nil =>
      intro _ hlt
      have hb : b < 256 := hlt b (by simp)
      simpa [hwChars] using macColonGroups_one b hb
    | cons c rest =>
      intro _ hlt
      have hb : b < 256 := hlt b (by simp)
      have e : hwChars (b :: c :: rest) = hex2 b ++ ':' :: hwChars (c :: rest) := rfl
      have elen : (b :: c :: rest).length = (c :: rest).length + 1 := rfl
      rw [elen, e, macColonGroups_cons b hb]
      rw [ih (by simp) (fun x hx => hlt x (by simp [hx]))]
      rfl

/-- Claim C8: for any six random bytes, `GenerateMAC` emits the canonical
colon-hex string whose first octet is the literal `0x06` (whose
locally-administered bit `0x02` is set), and `net.ParseMAC` re-parses it into
exactly `[6, b1, b2, b3, b4, b5]`. -/
theorem GenerateMAC_locally_administered (b0 b1 b2 b3 b4 b5 : Fin 256) :
    (GenerateMAC b0 b1 b2 b3 b4 b5).2
        = some [6, b1.val, b2.val, b3.val, b4.val, b5.val]
      ∧ (6 : Nat) &&& 2 ≠ 0
      ∧ (GenerateMAC b0 b1 b2 b3 b4 b5).1
          = String.mk (hwChars [6, b1.val, b2.val, b3.val, b4.val, b5.val]) := by
  have hlt : ∀ x ∈ [6, b1.val, b2.val, b3.val, b4.val, b5.val], x < 256 := by
    intro x hx
    simp only [List.mem_cons, List.not_mem_nil, or_false] at hx
    rcases hx with rfl | rfl | rfl | rfl | rfl | rfl
    · norm_num
    · exact b1.isLt
    · exact b2.isLt
    · exact b3.isLt
    · exact b4.isLt
    · exact b5.isLt
  have hgroups := macColonGroups_hwChars [6, b1.val, b2.val, b3.val, b4.val, b5.val]
    (by simp) hlt
  simp only [List.length_cons, List.length_nil] at hgroups
  have hlen : (hwChars [6, b1.val, b2.val, b3.val, b4.val, b5.val]).length = 17 := by
    simp [hwChars, hex2]
  have hget : (hwChars [6, b1.val, b2.val, b3.val, b4.val, b5.val]).get? 2 = some ':' := by
    simp [hwChars, hex2]
  have hmac : netParseMAC (hwChars [6, b1.val, b2.val, b3.val, b4.val, b5.val])
      = some [6, b1.val, b2.val, b3.val, b4.val, b5.val] := by
    unfold netParseMAC
    rw [hlen, hget]
    simpa using hgroups
  have hG : GenerateMAC b0 b1 b2 b3 b4 b5
      = (String.mk (hwChars [6, b1.val, b2.val, b3.val, b4.val, b5.val]),
         some [6, b1.val, b2.val, b3.val, b4.val, b5.val]) := by
    simp only [GenerateMAC]
    rw [show ('0' :: '6' :: ':' :: (hex2 b1.val ++ ':' :: (hex2 b2.val ++ ':' ::
        (hex2 b3.val ++ ':' :: (hex2 b4.val ++ ':' :: hex2 b5.val)))) : List Char)
      = hwChars [6, b1.val, b2.val, b3.val, b4.val, b5.val] from rfl]
    rw [hmac]
  exact ⟨by rw [hG], by decide, by rw [hG]⟩

/-- Witness for `GenerateMAC_locally_administered` at concrete bytes. -/
theorem GenerateMAC_locally_administered_witness :
    (GenerateMAC 7 171 0 255 16 1).2 = some [6, 171, 0, 255, 16, 1] :=
  (GenerateMAC_locally_administered 7 171 0 255 16 1).1

/-- Claim C5 (counterexample): `ParseIntroString` accepts a payload whose
second part is a 64-bit (not 48-bit) hardware address and whose third part is
an IPv6 (not dotted-quad) literal, so success is not equivalent to the
claim's "valid 48-bit Ethernet MAC and valid dotted-quad IPv4" condition. -/
theorem ParseIntroString_accepts_beyond_spec :
    ParseIntroString "a,01:02:03:04:05:06:07:08,::1" ≠ ("", none, none)
      ∧ specMAC48 ("01:02:03:04:05:06:07:08".data) = false
      ∧ specDottedQuad ("::1".data) = false := by
  decide

/-- Claim C5 (amended): `ParseIntroString` returns a non-sentinel triple iff
the payload splits on commas into exactly three parts whose second part
`net.ParseMAC` accepts (48-, 64- or 160-bit hardware address) and whose third
part `net.ParseIP` accepts (IPv4 dotted quad or any IPv6 textual form);
otherwise it returns the sentinel (empty id, nil MAC, nil IP). -/
theorem ParseIntroString_success_iff (s : String) :
    ParseIntroString s ≠ ("", none, none)
      ↔ ∃ a b c, splitGo ',' s.data = [a, b, c]
          ∧ (netParseMAC b).isSome ∧ (netParseIP c).isSome := by
  unfold ParseIntroString
  rcases hsp : splitGo ',' s.data with _ | ⟨a, _ | ⟨b, _ | ⟨c, _ | ⟨d, t⟩⟩⟩⟩ <;>
    simp only [hsp]
  · simp
  · simp
  · simp
  · rcases hm : netParseMAC b with _ | mac
    · simp [hm]
    · rcases hi : netParseIP c with _ | ip
      · simp [hm, hi]
      · simp only [hm, hi]
        constructor
        · exact fun _ => ⟨a, b, c, rfl, by simp [hm], by simp [hi]⟩
        · intro _
          simp
  · simp

/-- Witness for `ParseIntroString_success_iff` on a well-formed payload. -/
theorem ParseIntroString_success_iff_witness :
    ParseIntroString "x,06:05:04:03:02:01,10.0.0.1" ≠ ("", none, none) :=
  (ParseIntroString_success_iff "x,06:05:04:03:02:01,10.0.0.1").mpr
    ⟨"x".data, "06:05:04:03:02:01".data, "10.0.0.1".data, by decide, by decide, by decide⟩

/-- Witness for `SyncPeersMergeKnownIPs_closed_form`: a batch with `""`, `"0"`
and one fresh address adds exactly the fresh address. -/
theorem SyncPeersMergeKnownIPs_closed_form_witness :
    SyncPeersMergeKnownIPs rslv9 [] ["", "0", "9.9.9.9:9"]
      = [some { host := "9.9.9.9", port := 9 }] :=
  (SyncPeersMergeKnownIPs_closed_form rslv9 [] ["", "0", "9.9.9.9:9"]).trans (by decide)

end P2P
